import Mathlib

/-!
Verification of the natural-language specification of the openauth enterprise
fork (client-secret authentication, multi-account browser sessions, RBAC
permission evaluation, migration bookkeeping, Cloudflare KV storage adapter).

The repository ships the SQL schemas, the test-suite of the client
authenticator, the migration generator and the Cloudflare storage adapter;
the bodies of `ClientAuthenticator`, `SessionServiceImpl` and
`RBACServiceImpl` are not among the sources, so those operations are
modelled from the specification (each such definition says so in its doc
comment).  Timestamps are Unix epoch milliseconds (`Nat`, or `Int` for the
Cloudflare adapter which subtracts freely).  Binary data (secrets, salts,
stored hashes) is a list of bytes.
-/

namespace OpenAuthSpec

/-- A byte, as appears in a `Uint8Array` salt or a UTF-8 encoded secret. -/
abbrev Byte := Fin 256

/-- The separator between the encoded salt and the derived key inside a stored
secret hash: the byte of the colon character. -/
def sepByte : Byte := ⟨58, by omega⟩

/-- Hex-style encoding of one byte as two bytes, each strictly below 16 (so in
particular never the separator byte).  Stands for the hex encoding the hasher
applies to salts and derived keys before joining them with the separator. -/
def encodeByte (b : Byte) : List Byte :=
  [⟨b.val / 16, by omega⟩, ⟨b.val % 16, by omega⟩]

/-- Hex-style encoding of a byte string. -/
def encBytes (bs : List Byte) : List Byte :=
  bs.flatMap encodeByte

/-- Decode a hex-style encoded byte string, consuming two bytes at a time. -/
def decodePairs : List Byte → List Byte
  | a :: b :: rest => ⟨(16 * a.val + b.val) % 256, by omega⟩ :: decodePairs rest
  | _ => []

theorem encodeByte_inj {a b : Byte} (h : encodeByte a = encodeByte b) : a = b := by
  simp only [encodeByte, List.cons.injEq, Fin.mk.injEq, and_true] at h
  obtain ⟨h1, h2⟩ := h
  have ha := a.isLt
  have hb := b.isLt
  apply Fin.ext
  omega

theorem decodePairs_encodeByte (b : Byte) (rest : List Byte) :
    decodePairs (encodeByte b ++ rest) = b :: decodePairs rest := by
  simp only [encodeByte, List.cons_append, List.nil_append, decodePairs]
  congr 1
  apply Fin.ext
  have := b.isLt
  simp only
  omega

theorem decodePairs_encBytes (bs : List Byte) : decodePairs (encBytes bs) = bs := by
  induction bs with
  | nil => rfl
  | cons b rest ih =>
    simp only [encBytes, List.flatMap_cons] at *
    rw [decodePairs_encodeByte]
    rw [ih]

theorem encBytes_inj {xs ys : List Byte} (h : encBytes xs = encBytes ys) : xs = ys := by
  have := congrArg decodePairs h
  rwa [decodePairs_encBytes, decodePairs_encBytes] at this

theorem mem_encBytes_lt {x : Byte} {bs : List Byte} (h : x ∈ encBytes bs) : x.val < 16 := by
  induction bs with
  | nil => simp [encBytes] at h
  | cons b rest ih =>
    simp only [encBytes, List.flatMap_cons, List.mem_append] at h
    rcases h with h | h
    · simp only [encodeByte, List.mem_cons, List.not_mem_nil, or_false] at h
      have := b.isLt
      rcases h with rfl | rfl <;> simp <;> omega
    · exact ih h

theorem sep_not_mem_encBytes (bs : List Byte) : sepByte ∉ encBytes bs := by
  intro h
  have h16 := mem_encBytes_lt h
  have h58 : sepByte.val = 58 := rfl
  omega

/-- Split a stored hash at the first separator byte, `none` when the separator
is absent (the malformed case).  Mirrors taking the first two components of
splitting the stored string on the colon. -/
def splitAtSep : List Byte → Option (List Byte × List Byte)
  | [] => none
  | b :: rest =>
    if b = sepByte then some ([], rest)
    else (splitAtSep rest).map fun p => (b :: p.1, p.2)

theorem splitAtSep_eq_none {l : List Byte} (h : sepByte ∉ l) : splitAtSep l = none := by
  induction l with
  | nil => rfl
  | cons b rest ih =>
    simp only [List.mem_cons, not_or] at h
    have hb : b ≠ sepByte := fun hb => h.1 hb.symm
    simp [splitAtSep, hb, ih h.2]

theorem splitAtSep_append {xs : List Byte} (ys : List Byte) (h : sepByte ∉ xs) :
    splitAtSep (xs ++ sepByte :: ys) = some (xs, ys) := by
  induction xs with
  | nil => simp [splitAtSep]
  | cons b rest ih =>
    simp only [List.mem_cons, not_or] at h
    have hb : b ≠ sepByte := fun hb => h.1 hb.symm
    simp [splitAtSep, hb, ih h.2]

/-- Result of the Secret Hasher: the full stored string (encoded salt,
separator, encoded derived key) together with the encoded salt. -/
structure HashResult where
  hash : List Byte
  salt : List Byte
  deriving Repr, DecidableEq

/-- Modelled from the spec: `hashSecret` of `ClientAuthenticator`
(src/client/authenticator.ts is absent from the sources; its contract is
spec §4.1 and the tests in the bundled authenticator test file).  A slow
salted key derivation over the secret and salt; the model replaces the
PBKDF2-class derivation by an injective encoding of the pair, which keeps
the properties the spec states: determinism in `(secret, salt)` and
sensitivity to the salt.  The returned `hash` is the encoded salt and the
derived key joined by the single separator byte; `salt` is the encoded
salt, matching the test expectation that splitting `hash` on the separator
returns the `salt` field first.  Random salt generation when the salt is
omitted is modelled by passing the salt explicitly. -/
def hashSecret (secret salt : List Byte) : HashResult :=
  { hash := encBytes salt ++ sepByte :: deriveKey secret salt
    salt := encBytes salt }
where
  /-- The derived key for a secret and salt. -/
  deriveKey (secret salt : List Byte) : List Byte := encBytes (secret ++ salt)

theorem deriveKey_inj_secret {s₁ s₂ salt : List Byte}
    (h : hashSecret.deriveKey s₁ salt = hashSecret.deriveKey s₂ salt) : s₁ = s₂ := by
  have h' := encBytes_inj h
  exact List.append_cancel_right h'

theorem sep_not_mem_deriveKey (secret salt : List Byte) :
    sepByte ∉ hashSecret.deriveKey secret salt :=
  sep_not_mem_encBytes _

theorem splitAtSep_hashSecret (secret salt : List Byte) :
    splitAtSep (hashSecret secret salt).hash =
      some (encBytes salt, hashSecret.deriveKey secret salt) := by
  exact splitAtSep_append _ (sep_not_mem_encBytes salt)

/-- An OAuth client record, after migration 007: the base columns of
001_oauth_clients.sql plus the client-management extensions
(`name`, `enabled`, `metadata`, `rotated_at`, `previous_secret_hash`,
`previous_secret_expires_at`).  `client_secret_hash = none` marks a public
client. -/
structure OAuthClient where
  client_id : String
  client_secret_hash : Option (List Byte)
  client_name : String
  redirect_uris : List String
  grant_types : List String
  scopes : List String
  created_at : Nat
  name : Option String
  enabled : Bool
  metadata : String
  rotated_at : Option Nat
  previous_secret_hash : Option (List Byte)
  previous_secret_expires_at : Option Nat
  deriving Repr, DecidableEq

/-- The pair returned by `validateClient`. -/
structure ValidationResult where
  valid : Bool
  isPublicClient : Bool
  deriving Repr, DecidableEq

/-- Modelled from the spec: `validateClient` of `ClientAuthenticator`
(src/client/authenticator.ts is absent; behavior is spec §4.2 plus the
authenticator test file).  The first argument is the result of the
client-record lookup, the second the supplied secret, `now` the current
time in epoch milliseconds.  The second component of the result counts the
Secret Hasher invocations performed on that execution path: one key
derivation is performed on every path (a fixed placeholder is hashed when
no secret or no usable stored hash is available, equalizing latency), and a
second derivation with the previous salt is performed exactly when the
current-hash comparison fails and the rotation grace check on
`previous_secret_hash` runs (`previous_secret_expires_at` not yet
elapsed). -/
def validateClient (client? : Option OAuthClient) (secret? : Option (List Byte))
    (now : Nat) : ValidationResult × Nat :=
  match client? with
  | none => (⟨false, false⟩, 1)
  | some client =>
    match client.client_secret_hash with
    | none => (⟨true, true⟩, 1)
    | some stored =>
      match secret? with
      | none => (⟨false, false⟩, 1)
      | some secret =>
        match splitAtSep stored with
        | none => (⟨false, false⟩, 1)
        | some (saltRepr, keyRepr) =>
          if hashSecret.deriveKey secret (decodePairs saltRepr) = keyRepr then
            (⟨true, false⟩, 1)
          else
            match client.previous_secret_hash, client.previous_secret_expires_at with
            | some prevStored, some prevExp =>
              if now < prevExp then
                match splitAtSep prevStored with
                | none => (⟨false, false⟩, 1)
                | some (prevSaltRepr, prevKeyRepr) =>
                  if hashSecret.deriveKey secret (decodePairs prevSaltRepr) = prevKeyRepr then
                    (⟨true, false⟩, 2)
                  else (⟨false, false⟩, 2)
              else (⟨false, false⟩, 1)
            | _, _ => (⟨false, false⟩, 1)

/-- Point update of a client-record store. -/
def updateClient (store : String → Option OAuthClient) (id : String)
    (c : OAuthClient) : String → Option OAuthClient :=
  fun j => if j = id then some c else store j

/-- Modelled from the spec: `updateClientSecret` of `ClientAuthenticator`
(implementation absent; behavior is spec §4.8 line of §4.2 and the
authenticator test file).  Moves the current hash into
`previous_secret_hash` with expiry `now + gracePeriodMs`, stores the hash
of the new secret as current, returns `true` with the updated store on
success; returns `false` with the store unchanged when the client does not
exist or when the adapter write fails (`writeOk = false` models the
adapter's `updateClient` returning null).  The fresh random salt is passed
explicitly as `newSalt`. -/
def updateClientSecret (store : String → Option OAuthClient) (clientId : String)
    (newSecret newSalt : List Byte) (now gracePeriodMs : Nat) (writeOk : Bool) :
    Bool × (String → Option OAuthClient) :=
  match store clientId with
  | none => (false, store)
  | some client =>
    if writeOk then
      (true, updateClient store clientId
        { client with
          client_secret_hash := some (hashSecret newSecret newSalt).hash
          previous_secret_hash := client.client_secret_hash
          previous_secret_expires_at := some (now + gracePeriodMs)
          rotated_at := some now })
    else (false, store)

theorem validateClient_current_match (client : OAuthClient) (secret salt : List Byte)
    (now : Nat) (h : client.client_secret_hash = some (hashSecret secret salt).hash) :
    validateClient (some client) (some secret) now = (⟨true, false⟩, 1) := by
  simp only [validateClient, h, splitAtSep_hashSecret, decodePairs_encBytes, if_pos rfl,
    if_true]

theorem validateClient_current_mismatch (client : OAuthClient)
    (secret supplied salt : List Byte) (now : Nat)
    (h : client.client_secret_hash = some (hashSecret secret salt).hash)
    (hne : supplied ≠ secret) :
    validateClient (some client) (some supplied) now =
      match client.previous_secret_hash, client.previous_secret_expires_at with
      | some prevStored, some prevExp =>
        if now < prevExp then
          match splitAtSep prevStored with
          | none => (⟨false, false⟩, 1)
          | some (prevSaltRepr, prevKeyRepr) =>
            if hashSecret.deriveKey supplied (decodePairs prevSaltRepr) = prevKeyRepr then
              (⟨true, false⟩, 2)
            else (⟨false, false⟩, 2)
        else (⟨false, false⟩, 1)
      | _, _ => (⟨false, false⟩, 1) := by
  have hkey : hashSecret.deriveKey supplied (decodePairs (encBytes salt)) ≠
      hashSecret.deriveKey secret salt := by
    rw [decodePairs_encBytes]
    exact fun hc => hne (deriveKey_inj_secret hc)
  simp only [validateClient, h, splitAtSep_hashSecret, if_neg hkey]

/-- A client record with every optional column empty, used as the base of the
concrete examples below. -/
def baseClient : OAuthClient :=
  { client_id := "c"
    client_secret_hash := none
    client_name := "n"
    redirect_uris := []
    grant_types := []
    scopes := []
    created_at := 0
    name := none
    enabled := true
    metadata := ""
    rotated_at := none
    previous_secret_hash := none
    previous_secret_expires_at := none }

/-- C8: the Secret Hasher is a deterministic function of `(secret, salt)` —
repeated calls with identical arguments return identical `{hash, salt}`
output — and for a fixed secret, distinct salts produce distinct hash
outputs. -/
theorem hashSecret_deterministic_and_salt_sensitive (s salt₁ salt₂ : List Byte) :
    hashSecret s salt₁ = hashSecret s salt₁ ∧
    (salt₁ ≠ salt₂ → (hashSecret s salt₁).hash ≠ (hashSecret s salt₂).hash) := by
  refine ⟨rfl, fun hne heq => hne ?_⟩
  have h12 : some (encBytes salt₁, hashSecret.deriveKey s salt₁) =
      some (encBytes salt₂, hashSecret.deriveKey s salt₂) := by
    rw [← splitAtSep_hashSecret s salt₁, ← splitAtSep_hashSecret s salt₂, heq]
  exact encBytes_inj (congrArg Prod.fst (Option.some.inj h12))

/-- Witness for C8 at secret `[1]`, salts `[2]` and `[3]`. -/
theorem hashSecret_deterministic_and_salt_sensitive_witness :
    ([2] : List Byte) ≠ [3] ∧
    (hashSecret ([1] : List Byte) [2]).hash ≠ (hashSecret ([1] : List Byte) [3]).hash :=
  ⟨by decide, (hashSecret_deterministic_and_salt_sensitive [1] [2] [3]).2 (by decide)⟩

/-- C7: a stored secret hash lacking the separator is rejected as invalid
(`valid = false`, `isPublicClient = false`) for every supplied secret, and
the result is the very value returned for a missing client, so the
malformed-data case is indistinguishable in the return value.  The model is
a total function, so no exception is possible. -/
theorem validateClient_malformed_hash (client : OAuthClient) (stored : List Byte)
    (secret? : Option (List Byte)) (now : Nat)
    (hstored : client.client_secret_hash = some stored) (hsep : sepByte ∉ stored) :
    (validateClient (some client) secret? now).1 = ⟨false, false⟩ ∧
    (validateClient (some client) secret? now).1 = (validateClient none secret? now).1 := by
  cases secret? with
  | none => simp [validateClient, hstored]
  | some s => simp [validateClient, hstored, splitAtSep_eq_none hsep]

/-- Witness for C7: a client whose stored hash is the separator-free byte
string `[1, 2, 3]`. -/
theorem validateClient_malformed_hash_witness :
    ({ baseClient with client_secret_hash := some [1, 2, 3] } : OAuthClient).client_secret_hash
        = some [1, 2, 3] ∧
    sepByte ∉ ([1, 2, 3] : List Byte) ∧
    (validateClient (some { baseClient with client_secret_hash := some [1, 2, 3] })
        (some [9]) 0).1 = ⟨false, false⟩ :=
  ⟨rfl, by decide,
    (validateClient_malformed_hash _ [1, 2, 3] (some [9]) 0 rfl (by decide)).1⟩

/-- A client freshly rotated: current secret `[1]` (salt `[2]`), previous
secret `[3]` (salt `[4]`) with grace expiry 100. -/
def rotatedClientEx : OAuthClient :=
  { baseClient with
    client_secret_hash := some (hashSecret [1] [2]).hash
    previous_secret_hash := some (hashSecret [3] [4]).hash
    previous_secret_expires_at := some 100 }

/-- C1 counterexample: validating the previous secret during the rotation
grace window derives a key under the current salt and then again under the
previous salt, so the Secret Hasher is invoked twice on that execution
path, refuting "invoked exactly once on every execution path". -/
theorem validateClient_invocations_counterexample :
    (validateClient (some rotatedClientEx) (some [3]) 0).2 ≠ 1 := by decide

/-- The execution paths of `validateClient` on which the rotation grace check
derives a key under the previous salt: the record exists with a
well-formed stored hash, a secret is supplied, the current-hash comparison
fails, a previous hash with a not-yet-elapsed expiry is present, and that
previous hash is itself well formed (a malformed previous hash yields no
salt to derive under). -/
def graceCheckDerives (client? : Option OAuthClient) (secret? : Option (List Byte))
    (now : Nat) : Bool :=
  match client? with
  | none => false
  | some client =>
    match client.client_secret_hash with
    | none => false
    | some stored =>
      match secret? with
      | none => false
      | some secret =>
        match splitAtSep stored with
        | none => false
        | some (saltRepr, keyRepr) =>
          if hashSecret.deriveKey secret (decodePairs saltRepr) = keyRepr then false
          else
            match client.previous_secret_hash, client.previous_secret_expires_at with
            | some prevStored, some prevExp =>
              if now < prevExp then
                match splitAtSep prevStored with
                | none => false
                | some _ => true
              else false
            | _, _ => false

/-- C1 (amended): on every call to `validateClient` the Secret Hasher
invocation count is completely characterized — it is 2 exactly on the
paths where the rotation grace check derives the supplied secret under the
previous salt, and 1 on every other path; in particular it is at least
once and at most twice everywhere, and exactly once when the client record
is absent, when no secret is supplied, when the client has no
`previous_secret_hash`, and when the stored hash is malformed. -/
theorem validateClient_hash_invocation_count (client? : Option OAuthClient)
    (secret? : Option (List Byte)) (now : Nat) :
    ((validateClient client? secret? now).2 =
      if graceCheckDerives client? secret? now then 2 else 1) ∧
    (1 ≤ (validateClient client? secret? now).2 ∧ (validateClient client? secret? now).2 ≤ 2) ∧
    (client? = none → (validateClient client? secret? now).2 = 1) ∧
    (secret? = none → (validateClient client? secret? now).2 = 1) ∧
    (∀ client, client? = some client → client.previous_secret_hash = none →
      (validateClient client? secret? now).2 = 1) ∧
    (∀ client stored, client? = some client → client.client_secret_hash = some stored →
      sepByte ∉ stored → (validateClient client? secret? now).2 = 1) := by
  refine ⟨?_, ?_, ?_, ?_, ?_, ?_⟩
  · unfold validateClient graceCheckDerives
    rcases client? with _ | client
    · simp
    · repeat' split
      all_goals simp_all
  · unfold validateClient
    rcases client? with _ | client
    · simp
    · repeat' split
      all_goals simp
  · rintro rfl
    simp [validateClient]
  · rintro rfl
    unfold validateClient
    rcases client? with _ | client
    · simp
    · repeat' split
      all_goals simp_all
  · rintro client rfl hprev
    unfold validateClient
    repeat' split
    all_goals simp_all
  · rintro client stored rfl hstored hsep
    rcases secret? with _ | secret <;>
      simp [validateClient, hstored, splitAtSep_eq_none hsep]

/-- Witness for C1 (amended): the characterization instantiated on a
grace-check path (count 2) and on a non-grace path with the previous hash
still present (a successful current-secret match, count 1), plus the
absent-record path. -/
theorem validateClient_hash_invocation_count_witness :
    (graceCheckDerives (some rotatedClientEx) (some [3]) 0 = true ∧
      (validateClient (some rotatedClientEx) (some [3]) 0).2 =
        (if graceCheckDerives (some rotatedClientEx) (some [3]) 0 then 2 else 1)) ∧
    (graceCheckDerives (some rotatedClientEx) (some [1]) 0 = false ∧
      (validateClient (some rotatedClientEx) (some [1]) 0).2 =
        (if graceCheckDerives (some rotatedClientEx) (some [1]) 0 then 2 else 1)) ∧
    (1 ≤ (validateClient (some rotatedClientEx) (some [3]) 0).2 ∧
      (validateClient (some rotatedClientEx) (some [3]) 0).2 ≤ 2) ∧
    ((validateClient none (some ([3] : List Byte)) 0).2 = 1) :=
  ⟨⟨by decide, (validateClient_hash_invocation_count (some rotatedClientEx) (some [3]) 0).1⟩,
    ⟨by decide, (validateClient_hash_invocation_count (some rotatedClientEx) (some [1]) 0).1⟩,
    (validateClient_hash_invocation_count (some rotatedClientEx) (some [3]) 0).2.1,
    (validateClient_hash_invocation_count none (some [3]) 0).2.2.1 rfl⟩

/-- C2: after `updateClientSecret` rotates a client's secret, the new secret
validates immediately (at every time), the old secret validates at every
time strictly before `previous_secret_expires_at = now + grace` and fails
at every time at or after it; the call returns `true` on success and
`false` — with the store untouched, never an exception — when the client
does not exist or the adapter write fails. -/
theorem updateClientSecret_rotation (store : String → Option OAuthClient)
    (clientId : String) (client : OAuthClient)
    (oldSecret oldSalt newSecret newSalt : List Byte) (now grace : Nat)
    (hget : store clientId = some client)
    (hcur : client.client_secret_hash = some (hashSecret oldSecret oldSalt).hash) :
    (updateClientSecret store clientId newSecret newSalt now grace true).1 = true ∧
    (∀ t, (validateClient
        ((updateClientSecret store clientId newSecret newSalt now grace true).2 clientId)
        (some newSecret) t).1.valid = true) ∧
    (∀ t, t < now + grace → (validateClient
        ((updateClientSecret store clientId newSecret newSalt now grace true).2 clientId)
        (some oldSecret) t).1.valid = true) ∧
    (∀ t, now + grace ≤ t → oldSecret ≠ newSecret → (validateClient
        ((updateClientSecret store clientId newSecret newSalt now grace true).2 clientId)
        (some oldSecret) t).1.valid = false) ∧
    (∀ id w, store id = none →
      updateClientSecret store id newSecret newSalt now grace w = (false, store)) ∧
    (updateClientSecret store clientId newSecret newSalt now grace false = (false, store)) := by
  have hstep : (updateClientSecret store clientId newSecret newSalt now grace true).2 clientId
      = some { client with
          client_secret_hash := some (hashSecret newSecret newSalt).hash
          previous_secret_hash := some (hashSecret oldSecret oldSalt).hash
          previous_secret_expires_at := some (now + grace)
          rotated_at := some now } := by
    simp [updateClientSecret, hget, hcur, updateClient]
  refine ⟨by simp [updateClientSecret, hget], ?_, ?_, ?_, ?_, ?_⟩
  · intro t
    rw [hstep, validateClient_current_match _ newSecret newSalt t rfl]
  · intro t ht
    rw [hstep]
    by_cases hsec : oldSecret = newSecret
    · rw [hsec, validateClient_current_match _ newSecret newSalt t rfl]
    · rw [validateClient_current_mismatch _ newSecret oldSecret newSalt t rfl hsec]
      simp [ht, splitAtSep_hashSecret, decodePairs_encBytes]
  · intro t ht hne
    rw [hstep, validateClient_current_mismatch _ newSecret oldSecret newSalt t rfl hne]
    simp [Nat.not_lt_of_le ht]
  · intro id w hnone
    simp [updateClientSecret, hnone]
  · simp [updateClientSecret, hget]

/-- Store for the C2 witness: one client whose current secret is `[7]`
hashed with salt `[8]`. -/
def storeC2Ex : String → Option OAuthClient := fun id =>
  if id = "tc" then
    some { baseClient with client_secret_hash := some (hashSecret [7] [8]).hash }
  else none

/-- Witness for C2: rotating to secret `[9]` (salt `[6]`) at time 10 with a
grace window of 5: the rotation succeeds, the new secret validates at time
0, the old secret validates at time 14 and fails at time 15. -/
theorem updateClientSecret_rotation_witness :
    storeC2Ex ("tc")
      = some { baseClient with client_secret_hash := some (hashSecret [7] [8]).hash } ∧
    (updateClientSecret storeC2Ex ("tc") [9] [6] 10 5 true).1 = true ∧
    (validateClient ((updateClientSecret storeC2Ex ("tc") [9] [6] 10 5 true).2 ("tc"))
      (some [9]) 0).1.valid = true ∧
    (validateClient ((updateClientSecret storeC2Ex ("tc") [9] [6] 10 5 true).2 ("tc"))
      (some [7]) 14).1.valid = true ∧
    (validateClient ((updateClientSecret storeC2Ex ("tc") [9] [6] 10 5 true).2 ("tc"))
      (some [7]) 15).1.valid = false := by
  have hget : storeC2Ex ("tc")
      = some { baseClient with client_secret_hash := some (hashSecret [7] [8]).hash } := by
    simp [storeC2Ex]
  have h := updateClientSecret_rotation storeC2Ex ("tc") _ [7] [8] [9] [6] 10 5 hget rfl
  exact ⟨hget, h.1, h.2.1 0, h.2.2.1 14 (by omega), h.2.2.2.1 15 (by omega) (by decide)⟩

/-- A row of the `browser_sessions` table (003_session_management.sql):
`version` is the optimistic-concurrency counter, `active_user_id` the
currently active account if any. -/
structure BrowserSession where
  id : String
  tenant_id : String
  created_at : Nat
  last_activity : Nat
  user_agent : Option String
  ip_address : Option String
  version : Nat
  active_user_id : Option String
  deriving Repr, DecidableEq

/-- A row of the `account_sessions` table (003_session_management.sql). -/
structure AccountSession where
  id : String
  browser_session_id : String
  user_id : String
  is_active : Bool
  authenticated_at : Nat
  expires_at : Nat
  subject_type : String
  subject_properties : Option String
  refresh_token : String
  client_id : String
  deriving Repr, DecidableEq

/-- Modelled from the spec: the session error taxonomy of §7
(src/contracts/types.ts is absent). -/
inductive SessionErrorCode where
  | MaxAccountsExceeded
  | SessionConflict
  | SessionExpired
  | SessionNotFound
  deriving Repr, DecidableEq

/-- Modelled from the spec: the session configuration passed to
`SessionServiceImpl` (maximum accounts per browser session, absolute
lifetime and sliding window, both in seconds). -/
structure SessionConfig where
  maxAccountsPerSession : Nat
  sessionLifetimeSeconds : Nat
  slidingWindowSeconds : Nat
  deriving Repr, DecidableEq

/-- The default configuration shown in the session module documentation:
3 accounts, 7-day lifetime, 1-day sliding window. -/
def DEFAULT_SESSION_CONFIG : SessionConfig :=
  { maxAccountsPerSession := 3
    sessionLifetimeSeconds := 7 * 24 * 60 * 60
    slidingWindowSeconds := 24 * 60 * 60 }

/-- Modelled from the spec: the store-level conditional write every mutating
session operation goes through (§5, §4.3; the adapter is absent from the
sources, the `version` column and its comment are in
003_session_management.sql).  The write succeeds only when the current
version equals the expected one, incrementing it; a mismatch is surfaced
as `SessionConflict`, never overwritten and never retried here. -/
def conditionalUpdateSession (store : String → Option BrowserSession) (id : String)
    (expectedVersion : Nat) (s' : BrowserSession) :
    Except SessionErrorCode (String → Option BrowserSession) :=
  match store id with
  | none => .error .SessionNotFound
  | some s =>
    if s.version = expectedVersion then
      .ok (fun j => if j = id then some { s' with version := expectedVersion + 1 } else store j)
    else .error .SessionConflict

/-- C3: two mutations racing on the same browser session at the same version,
linearized in either order by the store: the first conditional write
succeeds and bumps the version, the second then fails with
`SessionConflict`, and the persisted record carries exactly the winning
mutation's data. -/
theorem browserSession_optimistic_concurrency (store : String → Option BrowserSession)
    (id : String) (s n₁ n₂ : BrowserSession) (v : Nat)
    (h : store id = some s) (hv : s.version = v) :
    conditionalUpdateSession store id v n₁ =
      .ok (fun j => if j = id then some { n₁ with version := v + 1 } else store j) ∧
    conditionalUpdateSession
      (fun j => if j = id then some { n₁ with version := v + 1 } else store j) id v n₂ =
      .error .SessionConflict ∧
    (fun j => if j = id then some { n₁ with version := v + 1 } else store j) id =
      some { n₁ with version := v + 1 } ∧
    conditionalUpdateSession
      (fun j => if j = id then some { n₂ with version := v + 1 } else store j) id v n₁ =
      .error .SessionConflict := by
  refine ⟨?_, ?_, by simp, ?_⟩
  · simp [conditionalUpdateSession, h, hv]
  · simp [conditionalUpdateSession]
  · simp [conditionalUpdateSession]

/-- A browser session example for the session witnesses. -/
def sessionEx : BrowserSession :=
  { id := "s1"
    tenant_id := "t1"
    created_at := 0
    last_activity := 0
    user_agent := none
    ip_address := none
    version := 4
    active_user_id := none }

/-- Witness for C3 at a concrete one-session store and two concrete writes. -/
theorem browserSession_optimistic_concurrency_witness :
    (fun j => if j = "s1" then some sessionEx else none) ("s1") = some sessionEx ∧
    sessionEx.version = 4 ∧
    conditionalUpdateSession (fun j => if j = "s1" then some sessionEx else none) ("s1") 4
      { sessionEx with active_user_id := some "u1" } =
      .ok (fun j => if j = "s1" then
        some { { sessionEx with active_user_id := some "u1" } with version := 5 }
        else (fun j => if j = "s1" then some sessionEx else none) j) ∧
    conditionalUpdateSession
      (fun j => if j = "s1" then
        some { { sessionEx with active_user_id := some "u1" } with version := 5 }
        else (fun j => if j = "s1" then some sessionEx else none) j) ("s1") 4
      { sessionEx with active_user_id := some "u2" } = .error .SessionConflict := by
  have h := browserSession_optimistic_concurrency
    (fun j => if j = "s1" then some sessionEx else none) ("s1")
    sessionEx { sessionEx with active_user_id := some "u1" }
    { sessionEx with active_user_id := some "u2" } 4 (by simp) rfl
  exact ⟨by simp, rfl, h.1, h.2.1⟩

/-- Modelled from the spec: the aggregate state of one browser session and
its account sessions, as manipulated by `SessionServiceImpl` (absent from
the sources). -/
structure SessionState where
  browser : BrowserSession
  accounts : List AccountSession
  deriving Repr, DecidableEq

/-- Modelled from the spec: `AddAccount` of the Session Service (§4.3; the
implementation is absent).  Fails with `MaxAccountsExceeded` when the
session already holds the configured maximum of distinct accounts
(distinctness is the store's unique `(browser_session_id, user_id)`
constraint); otherwise inserts the account session and, if no account is
currently active, marks the new one active, bumping the version. -/
def addAccount (cfg : SessionConfig) (st : SessionState) (acct : AccountSession) :
    Except SessionErrorCode SessionState :=
  if cfg.maxAccountsPerSession ≤ st.accounts.length then
    .error .MaxAccountsExceeded
  else
    let makeActive := st.browser.active_user_id.isNone
    .ok { browser :=
            { st.browser with
              active_user_id :=
                if makeActive then some acct.user_id else st.browser.active_user_id
              version := st.browser.version + 1 }
          accounts := st.accounts ++
            [{ acct with is_active := makeActive, browser_session_id := st.browser.id }] }

/-- C4: at the configured maximum (default 3) `addAccount` fails with
`MaxAccountsExceeded` and, the result being an error, no state is written —
the existing account sessions are untouched; below the maximum it appends
the account session, keeping every existing one, and marks the new one
active exactly when no account was active. -/
theorem addAccount_max_accounts (cfg : SessionConfig) (st : SessionState)
    (acct : AccountSession) :
    (cfg.maxAccountsPerSession ≤ st.accounts.length →
      addAccount cfg st acct = .error .MaxAccountsExceeded) ∧
    (st.accounts.length < cfg.maxAccountsPerSession → st.browser.active_user_id = none →
      addAccount cfg st acct = .ok
        { browser := { st.browser with
            active_user_id := some acct.user_id
            version := st.browser.version + 1 }
          accounts := st.accounts ++
            [{ acct with is_active := true, browser_session_id := st.browser.id }] }) ∧
    (∀ u, st.accounts.length < cfg.maxAccountsPerSession →
      st.browser.active_user_id = some u →
      addAccount cfg st acct = .ok
        { browser := { st.browser with
            active_user_id := some u
            version := st.browser.version + 1 }
          accounts := st.accounts ++
            [{ acct with is_active := false, browser_session_id := st.browser.id }] }) := by
  refine ⟨fun hfull => ?_, fun hroom hnone => ?_, fun u hroom hsome => ?_⟩
  · simp [addAccount, hfull]
  · simp [addAccount, Nat.not_le_of_lt hroom, hnone]
  · simp [addAccount, Nat.not_le_of_lt hroom, hsome]

/-- An account session example for the session witnesses. -/
def accountEx (u : String) : AccountSession :=
  { id := u
    browser_session_id := "s1"
    user_id := u
    is_active := false
    authenticated_at := 0
    expires_at := 1000
    subject_type := "user"
    subject_properties := none
    refresh_token := "r"
    client_id := "c" }

/-- Witness for C4: a session already holding 3 accounts rejects a 4th under
the default configuration, and a 2-account session accepts one. -/
theorem addAccount_max_accounts_witness :
    (DEFAULT_SESSION_CONFIG.maxAccountsPerSession ≤
      ([accountEx ("a"), accountEx ("b"), accountEx ("c")] : List AccountSession).length ∧
      addAccount DEFAULT_SESSION_CONFIG
        ⟨sessionEx, [accountEx ("a"), accountEx ("b"), accountEx ("c")]⟩ (accountEx ("d")) =
        .error .MaxAccountsExceeded) ∧
    (addAccount DEFAULT_SESSION_CONFIG ⟨sessionEx, [accountEx ("a"), accountEx ("b")]⟩
        (accountEx ("d")) = .ok
        { browser := { sessionEx with active_user_id := some "d", version := 5 }
          accounts := [accountEx ("a"), accountEx ("b"),
            { accountEx ("d") with is_active := true }] }) := by
  constructor
  · refine ⟨by decide, ?_⟩
    exact (addAccount_max_accounts DEFAULT_SESSION_CONFIG
      ⟨sessionEx, [accountEx ("a"), accountEx ("b"), accountEx ("c")]⟩
      (accountEx ("d"))).1 (by decide)
  · have h := (addAccount_max_accounts DEFAULT_SESSION_CONFIG
      ⟨sessionEx, [accountEx ("a"), accountEx ("b")]⟩ (accountEx ("d"))).2.1
      (by decide) rfl
    rw [h]
    rfl

/-- Modelled from the spec: the session expiration predicate of §4.3 — a
browser session is expired when the time since the last activity exceeds
the sliding window or the time since creation exceeds the absolute
lifetime (timestamps in milliseconds, configuration in seconds). -/
def isSessionExpired (cfg : SessionConfig) (s : BrowserSession) (now : Nat) : Bool :=
  decide (cfg.slidingWindowSeconds * 1000 < now - s.last_activity) ||
    decide (cfg.sessionLifetimeSeconds * 1000 < now - s.created_at)

/-- Modelled from the spec: the read path for a browser session (the
implementation is absent) — an expired session is treated exactly like a
missing one, without waiting for the cleanup sweep to delete the row. -/
def getBrowserSession (cfg : SessionConfig) (store : String → Option BrowserSession)
    (id : String) (now : Nat) : Option BrowserSession :=
  match store id with
  | none => none
  | some s => if isSessionExpired cfg s now then none else some s

/-- The `expired_sessions` cleanup view of 003_session_management.sql: a
browser session is eligible for batch cleanup when its last activity is
older than a fixed 7 days. -/
def cleanupEligible (s : BrowserSession) (now : Nat) : Bool :=
  decide (s.last_activity < now - 7 * 24 * 60 * 60 * 1000)

/-- C5: a browser session is expired exactly when the sliding-window bound or
the absolute-lifetime bound is exceeded (whichever is tighter), the read
path returns an expired session never — it behaves as absent even when the
advisory cleanup view does not yet select it — and everything the read
path returns is stored and unexpired. -/
theorem sessionExpiry_read_path (cfg : SessionConfig)
    (store : String → Option BrowserSession) (id : String) (s : BrowserSession) (now : Nat) :
    (isSessionExpired cfg s now = true ↔
      (cfg.slidingWindowSeconds * 1000 < now - s.last_activity ∨
        cfg.sessionLifetimeSeconds * 1000 < now - s.created_at)) ∧
    (store id = some s → isSessionExpired cfg s now = true →
      getBrowserSession cfg store id now = none) ∧
    (store id = some s → isSessionExpired cfg s now = true → cleanupEligible s now = false →
      getBrowserSession cfg store id now = none) ∧
    (getBrowserSession cfg store id now = some s →
      store id = some s ∧ isSessionExpired cfg s now = false) := by
  refine ⟨by simp [isSessionExpired], fun hs hexp => ?_, fun hs hexp _ => ?_, fun hread => ?_⟩
  · simp [getBrowserSession, hs, hexp]
  · simp [getBrowserSession, hs, hexp]
  · unfold getBrowserSession at hread
    rcases hs : store id with _ | s' <;> rw [hs] at hread
    · exact absurd hread (by simp)
    · rcases hexp : isSessionExpired cfg s' now with _ | _ <;> simp [hexp] at hread
      subst hread
      exact ⟨rfl, hexp⟩

/-- Witness for C5: under the default configuration a session last active at
time 0 is expired at `now` one day plus one millisecond later, is not yet
selected by the 7-day cleanup view, and the read path already treats it as
absent. -/
theorem sessionExpiry_read_path_witness :
    isSessionExpired DEFAULT_SESSION_CONFIG sessionEx (24 * 60 * 60 * 1000 + 1) = true ∧
    cleanupEligible sessionEx (24 * 60 * 60 * 1000 + 1) = false ∧
    getBrowserSession DEFAULT_SESSION_CONFIG
      (fun j => if j = "s1" then some sessionEx else none) ("s1")
      (24 * 60 * 60 * 1000 + 1) = none := by
  refine ⟨by decide, by decide, ?_⟩
  exact (sessionExpiry_read_path DEFAULT_SESSION_CONFIG
    (fun j => if j = "s1" then some sessionEx else none) ("s1") sessionEx
    (24 * 60 * 60 * 1000 + 1)).2.2.1 (by simp) (by decide) (by decide)

/-- A row of `rbac_roles` (004_rbac_schema.sql). -/
structure RbacRole where
  id : String
  name : String
  tenant_id : String
  description : Option String
  is_system_role : Bool
  created_at : Nat
  updated_at : Nat
  deriving Repr, DecidableEq

/-- A row of `rbac_permissions` (004_rbac_schema.sql). -/
structure RbacPermission where
  id : String
  name : String
  app_id : String
  description : Option String
  resource : String
  action : String
  created_at : Nat
  deriving Repr, DecidableEq

/-- A row of `rbac_role_permissions` (004_rbac_schema.sql). -/
structure RbacRolePermission where
  role_id : String
  permission_id : String
  granted_at : Nat
  granted_by : String
  deriving Repr, DecidableEq

/-- A row of `rbac_user_roles` (004_rbac_schema.sql); `expires_at = none`
means the assignment never expires. -/
structure RbacUserRole where
  user_id : String
  role_id : String
  tenant_id : String
  assigned_at : Nat
  expires_at : Option Nat
  assigned_by : String
  deriving Repr, DecidableEq

/-- The relational state the RBAC view ranges over. -/
structure RbacDb where
  roles : List RbacRole
  permissions : List RbacPermission
  rolePermissions : List RbacRolePermission
  userRoles : List RbacUserRole
  deriving Repr, DecidableEq

/-- The effectiveness filter of the `user_permissions` view
(004_rbac_schema.sql): `expires_at IS NULL OR expires_at > now`. -/
def userRoleEffective (now : Nat) (ur : RbacUserRole) : Bool :=
  match ur.expires_at with
  | none => true
  | some e => decide (now < e)

/-- A row of the `user_permissions` view. -/
structure UserPermissionRow where
  user_id : String
  tenant_id : String
  app_id : String
  permission_name : String
  resource : String
  action : String
  role_name : String
  deriving Repr, DecidableEq

/-- The `user_permissions` view of 004_rbac_schema.sql: user roles filtered
by effectiveness, joined through roles and role-permission grants to
permissions. -/
def userPermissionsView (db : RbacDb) (now : Nat) : List UserPermissionRow :=
  (db.userRoles.filter (userRoleEffective now)).flatMap fun ur =>
    (db.roles.filter fun r => decide (r.id = ur.role_id)).flatMap fun r =>
      (db.rolePermissions.filter fun rp => decide (rp.role_id = r.id)).flatMap fun rp =>
        (db.permissions.filter fun p => decide (p.id = rp.permission_id)).map fun p =>
          ⟨ur.user_id, ur.tenant_id, p.app_id, p.name, p.resource, p.action, r.name⟩

/-- Modelled from the spec: `checkPermission` of the RBAC service (§4.4; the
service implementation is absent, the underlying join is the
`user_permissions` view in the sources) — true when some effective
assignment reaches the permission for this user, tenant and app. -/
def checkPermission (db : RbacDb) (now : Nat)
    (userId tenantId appId permission : String) : Bool :=
  (userPermissionsView db now).any fun row =>
    decide (row.user_id = userId ∧ row.tenant_id = tenantId ∧
      row.app_id = appId ∧ row.permission_name = permission)

/-- Modelled from the spec: `enrichTokenWithRBAC` (§4.4; implementation
absent) — the effective role names and permission names for the token
claims, drawn from the same view. -/
def enrichTokenWithRBAC (db : RbacDb) (now : Nat) (userId tenantId appId : String) :
    List String × List String :=
  let rows := (userPermissionsView db now).filter fun row =>
    decide (row.user_id = userId ∧ row.tenant_id = tenantId ∧ row.app_id = appId)
  (rows.map (·.role_name), rows.map (·.permission_name))

theorem userPermissionsView_drop_expired (db : RbacDb) (pre post : List RbacUserRole)
    (ur : RbacUserRole) (now : Nat) (hineff : userRoleEffective now ur = false)
    (hsplit : db.userRoles = pre ++ ur :: post) :
    userPermissionsView db now =
      userPermissionsView { db with userRoles := pre ++ post } now := by
  unfold userPermissionsView
  rw [hsplit]
  simp [List.filter_append, List.filter_cons, hineff]

/-- C6: a user-role assignment whose `expires_at` lies at or before `now`
contributes nothing to `checkPermission` or to the enriched token claims —
deleting the not-yet-purged row changes neither — and an assignment is
effective exactly when `expires_at` is null or strictly in the future. -/
theorem expired_role_contributes_nothing (db : RbacDb) (pre post : List RbacUserRole)
    (ur : RbacUserRole) (e now : Nat)
    (hsplit : db.userRoles = pre ++ ur :: post)
    (hexp : ur.expires_at = some e) (hle : e ≤ now) :
    userRoleEffective now ur = false ∧
    (∀ u t a p, checkPermission db now u t a p =
      checkPermission { db with userRoles := pre ++ post } now u t a p) ∧
    (∀ u t a, enrichTokenWithRBAC db now u t a =
      enrichTokenWithRBAC { db with userRoles := pre ++ post } now u t a) ∧
    (∀ ur' : RbacUserRole, userRoleEffective now ur' = true ↔
      (ur'.expires_at = none ∨ ∃ e', ur'.expires_at = some e' ∧ now < e')) := by
  have hineff : userRoleEffective now ur = false := by
    simp [userRoleEffective, hexp, Nat.not_lt_of_le hle]
  have hview := userPermissionsView_drop_expired db pre post ur now hineff hsplit
  refine ⟨hineff, fun u t a p => ?_, fun u t a => ?_, fun ur' => ?_⟩
  · unfold checkPermission
    rw [hview]
  · unfold enrichTokenWithRBAC
    rw [hview]
  · unfold userRoleEffective
    rcases ur'.expires_at with _ | e' <;> simp

/-- An expired role assignment for the C6 witness: expires at time 5. -/
def expiredUserRoleEx : RbacUserRole :=
  { user_id := "u1"
    role_id := "r1"
    tenant_id := "t1"
    assigned_at := 0
    expires_at := some 5
    assigned_by := "adm" }

/-- A relational state whose only assignment is the expired one, with a role,
a permission and a grant that would reach the permission were the
assignment effective. -/
def rbacDbEx : RbacDb :=
  { roles := [{ id := "r1", name := "admin", tenant_id := "t1", description := none,
                is_system_role := false, created_at := 0, updated_at := 0 }]
    permissions := [{ id := "p1", name := "docs:read", app_id := "app1", description := none,
                      resource := "docs", action := "read", created_at := 0 }]
    rolePermissions := [{ role_id := "r1", permission_id := "p1", granted_at := 0,
                          granted_by := "adm" }]
    userRoles := [expiredUserRoleEx] }

/-- Witness for C6: at time 10 the assignment expired at 5 is ineffective,
`checkPermission` agrees with the state where the row is purged, and the
permission is denied even though the join would reach it. -/
theorem expired_role_contributes_nothing_witness :
    expiredUserRoleEx.expires_at = some 5 ∧ (5 : Nat) ≤ 10 ∧
    userRoleEffective 10 expiredUserRoleEx = false ∧
    checkPermission rbacDbEx 10 ("u1") ("t1") ("app1") ("docs:read") =
      checkPermission { rbacDbEx with userRoles := [] } 10 ("u1") ("t1") ("app1") ("docs:read") ∧
    checkPermission rbacDbEx 10 ("u1") ("t1") ("app1") ("docs:read") = false := by
  have h := expired_role_contributes_nothing rbacDbEx [] [] expiredUserRoleEx 5 10
    rfl rfl (by omega)
  have heq := h.2.1 ("u1") ("t1") ("app1") ("docs:read")
  exact ⟨rfl, by omega, h.1, heq, by rw [heq]; decide⟩

/-- The per-isolate migration phase of the generated migrations module
(`migrationState` in src/packages/openauth/script/generate-migrations.ts). -/
inductive MigPhase where
  | pending
  | running
  | complete
  deriving Repr, DecidableEq

/-- The per-isolate migration bookkeeping: the phase, whether
`migrationPromise` is set, and how many times the migration routine
(`ensureMigrations`) has been launched. -/
structure MigrationState where
  phase : MigPhase
  promiseActive : Bool
  runsStarted : Nat
  deriving Repr, DecidableEq

/-- The state at isolate start: `migrationState = "pending"`,
`migrationPromise = null`, nothing launched yet. -/
def initialMigrationState : MigrationState :=
  { phase := .pending, promiseActive := false, runsStarted := 0 }

/-- One call to `ensureMigrationsOnce`
(src/packages/openauth/script/generate-migrations.ts): return immediately
when complete; await the in-flight promise when running with a promise
set; otherwise mark running, set the promise and launch the migration
routine.  The Boolean reports whether a new run was launched. -/
def ensureMigrationsOnceCall (s : MigrationState) : MigrationState × Bool :=
  if s.phase = .complete then (s, false)
  else if s.phase = .running ∧ s.promiseActive = true then (s, false)
  else ({ phase := .running, promiseActive := true, runsStarted := s.runsStarted + 1 }, true)

/-- Settling of the in-flight run: on success the phase becomes complete, on
failure it is reset to pending so a later call retries; the promise field
is left set, as in the source. -/
def finishMigrationRun (s : MigrationState) (success : Bool) : MigrationState :=
  if s.phase = .running then
    if success then { s with phase := .complete } else { s with phase := .pending }
  else s

/-- An event of the per-isolate migration history: a call to
`ensureMigrationsOnce` or the settling of the in-flight run. -/
inductive MigEvent where
  | call
  | finish (success : Bool)
  deriving Repr, DecidableEq

/-- Apply one event. -/
def migStep (s : MigrationState) : MigEvent → MigrationState
  | .call => (ensureMigrationsOnceCall s).1
  | .finish ok => finishMigrationRun s ok

/-- Apply a sequence of events. -/
def migExec (s : MigrationState) : List MigEvent → MigrationState
  | [] => s
  | e :: es => migExec (migStep s e) es

/-- Invariant carried by failure-free histories: at most one launch, no
launch yet while pending, and a set promise whenever running. -/
def MigInv (s : MigrationState) : Prop :=
  s.runsStarted ≤ 1 ∧ (s.phase = .pending → s.runsStarted = 0) ∧
    (s.phase = .running → s.promiseActive = true)

theorem migInv_step (s : MigrationState) (e : MigEvent) (hinv : MigInv s)
    (hnf : e ≠ .finish false) : MigInv (migStep s e) := by
  obtain ⟨h1, h2, h3⟩ := hinv
  cases e with
  | call =>
    rcases hp : s.phase with _ | _ | _
    · simp_all [migStep, ensureMigrationsOnceCall, MigInv, hp]
    · have hpa := h3 hp
      simp_all [migStep, ensureMigrationsOnceCall, MigInv, hp]
    · simp_all [migStep, ensureMigrationsOnceCall, MigInv, hp]
  | finish ok =>
    cases ok
    · exact absurd rfl hnf
    · rcases hp : s.phase with _ | _ | _ <;>
        simp_all [migStep, finishMigrationRun, MigInv, hp]

theorem migInv_exec (tr : List MigEvent) (s : MigrationState) (hinv : MigInv s)
    (hnf : MigEvent.finish false ∉ tr) : MigInv (migExec s tr) := by
  induction tr generalizing s with
  | nil => exact hinv
  | cons e es ih =>
    simp only [List.mem_cons, not_or] at hnf
    exact ih (migStep s e) (migInv_step s e hinv (fun h => hnf.1 h.symm)) hnf.2

/-- C9: within one isolate the migration guard only moves
pending → running → complete, with running → pending on failure; a call
while a run is in flight launches nothing (it awaits the shared promise),
a call after completion launches nothing (no database work), a failed run
resets the phase to pending and the next call launches a retry, and along
any history without a failed run the migration routine is launched at most
once. -/
theorem migration_state_machine :
    (∀ s e, (migStep s e).phase = s.phase ∨
      (s.phase = .pending ∧ e = .call ∧ (migStep s e).phase = .running) ∨
      (s.phase = .running ∧ e = .finish true ∧ (migStep s e).phase = .complete) ∨
      (s.phase = .running ∧ e = .finish false ∧ (migStep s e).phase = .pending)) ∧
    (∀ s, s.phase = .running → s.promiseActive = true →
      ensureMigrationsOnceCall s = (s, false)) ∧
    (∀ s, s.phase = .complete → ensureMigrationsOnceCall s = (s, false)) ∧
    (∀ s, s.phase = .running → (finishMigrationRun s false).phase = .pending ∧
      (ensureMigrationsOnceCall (finishMigrationRun s false)).2 = true) ∧
    (∀ tr, MigEvent.finish false ∉ tr →
      (migExec initialMigrationState tr).runsStarted ≤ 1) := by
  refine ⟨?_, ?_, ?_, ?_, ?_⟩
  · intro s e
    cases e with
    | call =>
      rcases hp : s.phase with _ | _ | _
      · exact Or.inr (Or.inl ⟨rfl, rfl, by simp [migStep, ensureMigrationsOnceCall, hp]⟩)
      · by_cases hpa : s.promiseActive = true
        · exact Or.inl (by simp [migStep, ensureMigrationsOnceCall, hp, hpa])
        · exact Or.inl (by simp [migStep, ensureMigrationsOnceCall, hp, hpa])
      · exact Or.inl (by simp [migStep, ensureMigrationsOnceCall, hp])
    | finish ok =>
      rcases hp : s.phase with _ | _ | _
      · exact Or.inl (by simp [migStep, finishMigrationRun, hp])
      · cases ok
        · exact Or.inr (Or.inr (Or.inr ⟨rfl, rfl,
            by simp [migStep, finishMigrationRun, hp]⟩))
        · exact Or.inr (Or.inr (Or.inl ⟨rfl, rfl,
            by simp [migStep, finishMigrationRun, hp]⟩))
      · exact Or.inl (by simp [migStep, finishMigrationRun, hp])
  · intro s h1 h2
    simp [ensureMigrationsOnceCall, h1, h2]
  · intro s h
    simp [ensureMigrationsOnceCall, h]
  · intro s h
    constructor
    · simp [finishMigrationRun, h]
    · simp [ensureMigrationsOnceCall, finishMigrationRun, h]
  · intro tr hnf
    exact (migInv_exec tr initialMigrationState
      ⟨by decide, fun _ => rfl, fun h => by simp [initialMigrationState] at h⟩ hnf).1

/-- Witness for C9: a history with two calls, a successful settling and a
late call launches exactly one run; a call in the running-with-promise
state and a call after completion are both no-ops; a failure resets to
pending and the next call retries. -/
theorem migration_state_machine_witness :
    (MigEvent.finish false ∉
      ([.call, .call, .finish true, .call] : List MigEvent) ∧
      (migExec initialMigrationState [.call, .call, .finish true, .call]).runsStarted ≤ 1) ∧
    ensureMigrationsOnceCall { phase := .running, promiseActive := true, runsStarted := 1 } =
      ({ phase := .running, promiseActive := true, runsStarted := 1 }, false) ∧
    ensureMigrationsOnceCall { phase := .complete, promiseActive := true, runsStarted := 1 } =
      ({ phase := .complete, promiseActive := true, runsStarted := 1 }, false) ∧
    (finishMigrationRun { phase := .running, promiseActive := true, runsStarted := 1 }
        false).phase = .pending := by
  refine ⟨⟨by decide, ?_⟩, ?_, ?_, ?_⟩
  · exact migration_state_machine.2.2.2.2 [.call, .call, .finish true, .call] (by decide)
  · exact migration_state_machine.2.1 _ rfl rfl
  · exact migration_state_machine.2.2.1 _ rfl
  · exact (migration_state_machine.2.2.2.1 _ rfl).1

/-- The expiration metadata of a Cloudflare KV entry written by the storage
adapter: the value and the absolute time (epoch milliseconds) at which the
entry stops being readable, if any. -/
structure KVEntry where
  value : String
  expiresAt : Option Int
  deriving Repr, DecidableEq

/-- The `expirationTtl` computed by `CloudflareStorage.set`
(src/packages/openauth/src/storage/cloudflare.ts): for a given expiry the
TTL in seconds is the floor of the remaining milliseconds over 1000,
clamped from below to 60; no expiry means no TTL. -/
def cloudflareExpirationTtl (expiry? : Option Int) (now : Int) : Option Int :=
  match expiry? with
  | none => none
  | some e => some (max (Int.fdiv (e - now) 1000) 60)

/-- A KV put with an optional TTL in seconds: the entry expires `ttl` seconds
after the write, or never. -/
def kvPut (now : Int) (value : String) (ttl? : Option Int) : KVEntry :=
  { value := value, expiresAt := ttl?.map fun t => now + t * 1000 }

/-- The write path of `CloudflareStorage.set`, composed of the TTL
computation and the KV put. -/
def cloudflareSet (now : Int) (value : String) (expiry? : Option Int) : KVEntry :=
  kvPut now value (cloudflareExpirationTtl expiry? now)

/-- Whether a KV entry is still readable at time `t`. -/
def kvReadable (entry : KVEntry) (t : Int) : Bool :=
  match entry.expiresAt with
  | none => true
  | some x => decide (t < x)

/-- C10: with an expiry, the TTL handed to the KV store is
`max (floor ((expiry - now) / 1000)) 60` seconds, and whenever the expiry
is less than 60 seconds in the future — in particular already past — the
value is still stored and stays readable for the full 60 seconds instead
of expiring at the requested time. -/
theorem cloudflareSet_ttl (e now : Int) (v : String) :
    cloudflareExpirationTtl (some e) now = some (max (Int.fdiv (e - now) 1000) 60) ∧
    (e - now < 60000 →
      cloudflareExpirationTtl (some e) now = some 60 ∧
      (∀ t, t < now + 60000 → kvReadable (cloudflareSet now v (some e)) t = true)) := by
  refine ⟨rfl, fun hlt => ?_⟩
  have hfd : Int.fdiv (e - now) 1000 < 60 := by
    rw [Int.fdiv_eq_ediv _ (by norm_num)]
    rw [Int.ediv_lt_iff_lt_mul (by norm_num)]
    omega
  have hmax : max (Int.fdiv (e - now) 1000) 60 = 60 := max_eq_right (le_of_lt hfd)
  refine ⟨by simp [cloudflareExpirationTtl, hmax], fun t ht => ?_⟩
  have hexp : (cloudflareSet now v (some e)).expiresAt = some (now + 60 * 1000) := by
    simp [cloudflareSet, kvPut, cloudflareExpirationTtl, hmax]
  simp only [kvReadable, hexp, decide_eq_true_eq]
  omega

/-- Witness for C10: an expiry one second in the past still yields a 60-second
TTL and the value is readable just before the 60 seconds elapse. -/
theorem cloudflareSet_ttl_witness :
    ((999000 : Int) - 1000000 < 60000) ∧
    cloudflareExpirationTtl (some 999000) 1000000 = some 60 ∧
    kvReadable (cloudflareSet 1000000 ("v") (some 999000)) 1059999 = true := by
  have h := (cloudflareSet_ttl 999000 1000000 ("v")).2 (by norm_num)
  exact ⟨by norm_num, h.1, h.2 1059999 (by norm_num)⟩

end OpenAuthSpec
